import Mathlib

/-!
Verification of the ActionReplay core: the multitouch event decoder
(`Model_EventParser`), the line-oriented file cursor and the playback
scheduler tick of `Controller`, shallowly embedded from
`src/ActionReplay.py`.

Modelling conventions:
* Python `dict[int, ...]` becomes an association list with
  replace-or-append update (insertion order preserved, keys unique).
* Python exceptions (the `assert` on the field count, `ValueError` from
  `datetime.strptime` and `int(_, 16)`) become `none` results; all
  parsing in `parse_event_line` happens before any state mutation, so a
  failed call leaves the decoder state with the caller.
* `datetime.timestamp()` of a naive datetime uses the host's local
  timezone; the host timezone is modelled as a fixed offset `tz` in
  seconds east of UTC.  Python float arithmetic on millisecond-sized
  timestamps is modelled by exact rational arithmetic; `round` is
  round-half-to-even, `int(_)` truncates toward zero.
-/

/-! ### Python string/number primitives used by `parse_event_line` -/

/-- The ASCII whitespace characters recognised by Python's `str.split()`. -/
def isPySpace (c : Char) : Bool :=
  c = ' ' || c = '\t' || c = '\n' || c = '\r' || c = '\x0b' || c = '\x0c'

/-- Worker for `splitWS`: `cur` is the (reversed) current field. -/
def splitWSAux : List Char → List Char → List (List Char)
  | [], [] => []
  | [], cur => [cur.reverse]
  | c :: cs, cur =>
    if isPySpace c then
      match cur with
      | [] => splitWSAux cs []
      | _ => cur.reverse :: splitWSAux cs []
    else splitWSAux cs (c :: cur)

/-- Python `str.split()` with no argument: split on runs of whitespace,
dropping leading and trailing whitespace (so the `.strip()` in the source
is a no-op before it). -/
def splitWS (s : String) : List String :=
  (splitWSAux s.data []).map (fun l => ⟨l⟩)

def hexDigitVal (c : Char) : Option Nat :=
  if '0' ≤ c ∧ c ≤ '9' then some (c.toNat - '0'.toNat)
  else if 'a' ≤ c ∧ c ≤ 'f' then some (c.toNat - 'a'.toNat + 10)
  else if 'A' ≤ c ∧ c ≤ 'F' then some (c.toNat - 'A'.toNat + 10)
  else none

/-- Hex digits after the first one: CPython allows a single `_` between
two digits, never leading, trailing or doubled. -/
def hexDigitsRest : List Char → Nat → Option Nat
  | [], acc => some acc
  | '_' :: cs, acc =>
    match cs with
    | c :: cs' =>
      match hexDigitVal c with
      | some v => hexDigitsRest cs' (acc * 16 + v)
      | none => none
    | [] => none
  | c :: cs, acc =>
    match hexDigitVal c with
    | some v => hexDigitsRest cs (acc * 16 + v)
    | none => none

/-- A nonempty run of hex digits (with CPython underscore grouping). -/
def pyHexDigits : List Char → Option Nat
  | c :: cs =>
    match hexDigitVal c with
    | some v => hexDigitsRest cs v
    | none => none
  | [] => none

/-- The part of `int(s, base=16)` after an optional sign: an optional
`0x`/`0X` prefix (itself optionally followed by one `_`), then digits. -/
def pyIntHexBody (cs : List Char) : Option Nat :=
  match cs with
  | '0' :: x :: rest =>
    if x = 'x' ∨ x = 'X' then
      match rest with
      | '_' :: rest' => pyHexDigits rest'
      | _ => pyHexDigits rest
    else pyHexDigits cs
  | _ => pyHexDigits cs

/-- Python `int(s, base=16)`.  The fields it is applied to come from
`str.split()` and therefore contain no whitespace, so the surrounding
whitespace stripping `int` would perform is not modelled. -/
def pyIntHex (s : String) : Option Int :=
  match s.data with
  | '+' :: cs => (pyIntHexBody cs).map (fun n => (n : Int))
  | '-' :: cs => (pyIntHexBody cs).map (fun n => -(n : Int))
  | cs => (pyIntHexBody cs).map (fun n => (n : Int))

def digitVal (c : Char) : Option Nat :=
  if '0' ≤ c ∧ c ≤ '9' then some (c.toNat - '0'.toNat) else none

/-- `%Y` in CPython strptime: exactly four digits. -/
def take4Digits : List Char → Option (Nat × List Char)
  | a :: b :: c :: d :: rest =>
    match digitVal a, digitVal b, digitVal c, digitVal d with
    | some x, some y, some z, some w => some (((x * 10 + y) * 10 + z) * 10 + w, rest)
    | _, _, _, _ => none
  | _ => none

/-- An ordered-alternation two-or-one digit field, as in CPython's
strptime regexes (`ok2` constrains the two-digit reading, `ok1` the
one-digit fallback). -/
def take2or1 (ok2 ok1 : Nat → Bool) : List Char → Option (Nat × List Char)
  | a :: b :: rest =>
    match digitVal a, digitVal b with
    | some x, some y =>
      if ok2 (x * 10 + y) then some (x * 10 + y, rest)
      else if ok1 x then some (x, b :: rest) else none
    | some x, none => if ok1 x then some (x, b :: rest) else none
    | none, _ => none
  | [a] =>
    match digitVal a with
    | some x => if ok1 x then some (x, []) else none
    | none => none
  | [] => none

def expectChar (c : Char) : List Char → Option (List Char)
  | x :: rest => if x = c then some rest else none
  | [] => none

/-- A literal space in a strptime format matches one or more whitespace
characters. -/
def takeSpaces1 : List Char → Option (List Char)
  | x :: rest =>
    if isPySpace x then some (rest.dropWhile (fun c => isPySpace c)) else none
  | [] => none

/-- Greedily take up to six digits for `%f`. Returns the accumulated
value, the number of digits taken and the rest. -/
def takeMicrosAux : List Char → Nat → Nat → Nat × Nat × List Char
  | cs, acc, 6 => (acc, 6, cs)
  | [], acc, n => (acc, n, [])
  | c :: cs, acc, n =>
    match digitVal c with
    | some v => takeMicrosAux cs (acc * 10 + v) (n + 1)
    | none => (acc, n, c :: cs)

/-- `%f`: one to six digits, right-padded with zeros to microseconds. -/
def takeMicros (cs : List Char) : Option (Nat × List Char) :=
  let r := takeMicrosAux cs 0 0
  if r.2.1 = 0 then none else some (r.1 * 10 ^ (6 - r.2.1), r.2.2)

def isLeapYear (y : Nat) : Bool := (y % 4 = 0 ∧ y % 100 ≠ 0) ∨ y % 400 = 0

def daysInMonth (y m : Nat) : Nat :=
  if m = 2 then (if isLeapYear y then 29 else 28)
  else if m = 4 ∨ m = 6 ∨ m = 9 ∨ m = 11 then 30
  else 31

/-- Days from 1970-01-01 to the given proleptic-Gregorian civil date
(valid for years ≥ 1, the datetime range). -/
def daysFromCivil (y m d : Nat) : Int :=
  let y' := y - (if m ≤ 2 then 1 else 0)
  let era := y' / 400
  let yoe := y' % 400
  let mp := (m + 9) % 12
  let doy := (153 * mp + 2) / 5 + (d - 1)
  let doe := yoe * 365 + yoe / 4 - yoe / 100 + doy
  (era * 146097 + doe : Int) - 719468

/-- `datetime.strptime(dateS ++ " " ++ timeS, "%Y/%m/%d %H:%M:%S.%f")`,
including the range constraints of CPython's field regexes and the
validation done by the `datetime` constructor.  Returns the naive epoch
seconds (as if UTC) and the microseconds. -/
def parseNaiveDatetime (dateS timeS : String) : Option (Int × Nat) := do
  let cs := dateS.data ++ ' ' :: timeS.data
  let (y, cs) ← take4Digits cs
  let cs ← expectChar '/' cs
  let (mo, cs) ← take2or1 (fun v => 1 ≤ v && v ≤ 12) (fun v => 1 ≤ v) cs
  let cs ← expectChar '/' cs
  let (d, cs) ← take2or1 (fun v => 1 ≤ v && v ≤ 31) (fun v => 1 ≤ v) cs
  let cs ← takeSpaces1 cs
  let (h, cs) ← take2or1 (fun v => v ≤ 23) (fun _ => true) cs
  let cs ← expectChar ':' cs
  let (mi, cs) ← take2or1 (fun v => v ≤ 59) (fun _ => true) cs
  let cs ← expectChar ':' cs
  let (s, cs) ← take2or1 (fun v => v ≤ 61) (fun _ => true) cs
  let cs ← expectChar '.' cs
  let (us, cs) ← takeMicros cs
  if cs.isEmpty then
    if 1 ≤ y ∧ d ≤ daysInMonth y mo ∧ s ≤ 59 then
      some (daysFromCivil y mo d * 86400 + (h * 3600 + mi * 60 + s : Nat), us)
    else none
  else none

/-- Python `int(_)` on a float: truncation toward zero, on our exact
rational model. -/
def pyTruncRat (q : ℚ) : Int := if 0 ≤ q then ⌊q⌋ else ⌈q⌉

/-- `int(datetime.strptime(...).timestamp() * 1000)`: epoch milliseconds
of the naive local datetime, for host timezone offset `tz` seconds. -/
def parseTimestampMs (tz : Int) (dateS timeS : String) : Option Int :=
  (parseNaiveDatetime dateS timeS).map
    (fun p => pyTruncRat (((p.1 - tz : Int) : ℚ) * 1000 + (p.2 : ℚ) / 1000))

/-! ### The event decoder (`Model_EventParser`) -/

structure Slot where
  tracking_id : Option Int
  x : Option Int
  y : Option Int
deriving DecidableEq, Repr

/-- The value `__init_slot` stores: all three attributes `None`. -/
def Slot.empty : Slot := ⟨none, none, none⟩

/-- Association-list reading of a Python `dict[int, Slot]`. -/
def lookupSlot : List (Int × Slot) → Int → Option Slot
  | [], _ => none
  | (k', v) :: rest, k => if k' = k then some v else lookupSlot rest k

/-- Python `dict` assignment: replace in place if the key exists,
otherwise append. -/
def setSlot : List (Int × Slot) → Int → Slot → List (Int × Slot)
  | [], k, v => [(k, v)]
  | (k', v') :: rest, k, v =>
    if k' = k then (k, v) :: rest else (k', v') :: setSlot rest k v

/-- `__safe_get_slot`: create the slot if it does not exist, and return
it together with the (possibly extended) table. -/
def safe_get_slot (tbl : List (Int × Slot)) (slotID : Int) :
    Slot × List (Int × Slot) :=
  match lookupSlot tbl slotID with
  | some s => (s, tbl)
  | none => (Slot.empty, setSlot tbl slotID Slot.empty)

structure ParserState where
  activeSlot : Int
  slots : List (Int × Slot)
  slotsReady : Option Int
deriving DecidableEq, Repr

/-- The class-attribute defaults of `Model_EventParser`. -/
def initParserState : ParserState := ⟨0, [], none⟩

structure RawEvent where
  timestamp : Int
  type : Int
  code : Int
  value : Int
deriving DecidableEq, Repr

/-- The warnings `parse_event_line` and `__ready_slots` print. -/
inductive Warning where
  | unhandledAbs (code value : Int)
  | unreadSyn (timestamp : Int)
  | unhandledEvent (type code value : Int)
deriving DecidableEq, Repr

/-- The dispatch section of `parse_event_line` (everything after the
five fields have been parsed), together with `__select_slot`,
`__init_slot` and `__ready_slots`. -/
def dispatch_event (st : ParserState) (e : RawEvent) :
    ParserState × List Warning :=
  if e.type = 0x0003 then
    if e.code = 0x002f then ({ st with activeSlot := e.value }, [])
    else if e.code = 0x0039 then
      let p := safe_get_slot st.slots st.activeSlot
      if some e.value ≠ p.1.tracking_id then
        let tbl1 := setSlot p.2 st.activeSlot Slot.empty
        if e.value ≠ 0xffffffff then
          let p2 := safe_get_slot tbl1 st.activeSlot
          ({ st with
              slots := setSlot p2.2 st.activeSlot
                { p2.1 with tracking_id := some e.value } }, [])
        else ({ st with slots := tbl1 }, [])
      else ({ st with slots := p.2 }, [])
    else if e.code = 0x0035 then
      let p := safe_get_slot st.slots st.activeSlot
      ({ st with slots := setSlot p.2 st.activeSlot { p.1 with x := some e.value } }, [])
    else if e.code = 0x0036 then
      let p := safe_get_slot st.slots st.activeSlot
      ({ st with slots := setSlot p.2 st.activeSlot { p.1 with y := some e.value } }, [])
    else (st, [Warning.unhandledAbs e.code e.value])
  else if e.type = 0x0000 then
    ({ st with slotsReady := some e.timestamp },
     match st.slotsReady with
     | some t => [Warning.unreadSyn t]
     | none => [])
  else if e.type ≠ 0x0001 ∧ e.code ≠ 0x014a then
    (st, [Warning.unhandledEvent e.type e.code e.value])
  else (st, [])

/-- `parse_event_line`: split the line, parse the timestamp and the
three hex fields, then dispatch.  `none` models the propagated
`AssertionError`/`ValueError` (which occurs before any state mutation). -/
def parse_event_line (tz : Int) (st : ParserState) (line : String) :
    Option (ParserState × List Warning) :=
  match splitWS line with
  | [f0, f1, f2, f3, f4] =>
    match parseTimestampMs tz f0 f1, pyIntHex f2, pyIntHex f3, pyIntHex f4 with
    | some ts, some ty, some code, some v =>
      some (dispatch_event st { timestamp := ts, type := ty, code := code, value := v })
    | _, _, _, _ => none
  | _ => none

/-- `get_slots_ready`: return the ready signal and clear it. -/
def get_slots_ready (st : ParserState) : Option Int × ParserState :=
  (st.slotsReady, { st with slotsReady := none })

/-- Decode a list of lines in order, discarding warnings; `none` as soon
as one line fails. -/
def decodeAll (tz : Int) : ParserState → List String → Option ParserState
  | st, [] => some st
  | st, l :: rest =>
    match parse_event_line tz st l with
    | some (st', _) => decodeAll tz st' rest
    | none => none

/-- The slot table written by an `ABS_MT_POSITION_X` event. -/
def xUpdatedSlots (st : ParserState) (v : Int) : List (Int × Slot) :=
  setSlot (safe_get_slot st.slots st.activeSlot).2 st.activeSlot
    { (safe_get_slot st.slots st.activeSlot).1 with x := some v }

/-- The slot table written by an `ABS_MT_POSITION_Y` event. -/
def yUpdatedSlots (st : ParserState) (v : Int) : List (Int × Slot) :=
  setSlot (safe_get_slot st.slots st.activeSlot).2 st.activeSlot
    { (safe_get_slot st.slots st.activeSlot).1 with y := some v }

/-- The slot table after the reinitialize-and-set path of an
`ABS_MT_TRACKING_ID` event whose value is not the release sentinel. -/
def trackingSetSlots (st : ParserState) (v : Int) : List (Int × Slot) :=
  setSlot
    (safe_get_slot
      (setSlot (safe_get_slot st.slots st.activeSlot).2 st.activeSlot Slot.empty)
      st.activeSlot).2
    st.activeSlot
    { (safe_get_slot
        (setSlot (safe_get_slot st.slots st.activeSlot).2 st.activeSlot Slot.empty)
        st.activeSlot).1
      with tracking_id := some v }

/-! ### The line cursor (`Controller.__file_*`)

The loaded file is modelled as the list of its lines plus the read
position `__fileNextLineNum`; `__fileTotalLines` is the line count
`load_file` computes, i.e. `lines.length`, and nothing ever changes the
file contents. -/

structure FileState where
  lines : List String
  nextLineNum : Nat
deriving DecidableEq, Repr

/-- `__file_read_line`: the next line and the advanced cursor, or `none`
at end of stream (position unchanged). -/
def file_read_line (fs : FileState) : Option String × FileState :=
  match fs.lines[fs.nextLineNum]? with
  | some l => (some l, { fs with nextLineNum := fs.nextLineNum + 1 })
  | none => (none, fs)

/-- Read one line and discard it (the `for _ in range(...)` body of
`__file_goto_line` and `skip_events`). -/
def file_read_discard (fs : FileState) : FileState := (file_read_line fs).2

def file_read_discardN : Nat → FileState → FileState
  | 0, fs => fs
  | n + 1, fs => file_read_discardN n (file_read_discard fs)

/-- `__file_goto_line`: clamp the index to `[0, totalLines]`, then read
forward, or rewind to the start and read forward. -/
def file_goto_line (fs : FileState) (lineIndex : Int) : FileState :=
  let i1 := max lineIndex 0
  let i2 := min i1 (fs.lines.length : Int)
  let tgt := i2.toNat
  if tgt = fs.nextLineNum then fs
  else if fs.nextLineNum < tgt then
    file_read_discardN (tgt - fs.nextLineNum) fs
  else
    file_read_discardN tgt { fs with nextLineNum := 0 }

/-- Read `k` lines in order, collecting the results. -/
def file_read_lines : Nat → FileState → List (Option String) × FileState
  | 0, fs => ([], fs)
  | n + 1, fs =>
    let r := file_read_line fs
    let rs := file_read_lines n r.2
    (r.1 :: rs.1, rs.2)

/-! ### The playback scheduler tick (`Controller.__realtime_event_tick`) -/

/-- Python `round`: round half to even, on our exact rational model of
the float division. -/
def pyRound (q : ℚ) : Int :=
  let f := ⌊q⌋
  if q - f < 1 / 2 then f
  else if 1 / 2 < q - f then f + 1
  else if f % 2 = 0 then f else f + 1

/-- The `Controller` state touched by `__realtime_event_tick`, together
with the decoder it owns and the loaded file. -/
structure CtrlState where
  parser : ParserState
  file : FileState
  previousSlots : List (Int × Slot)
  previousSynEventTmstmp : Option Int
  waitingStartTmstmp : Int
  waitingTargetTmstmp : Option Int
  waitingTimeDivisor : Int
  skipWaitingFlag : Bool
  skipWaitingTimeOffsetFlag : Bool
  currentEventLine : String
deriving DecidableEq, Repr

/-- The part of `__realtime_event_tick` after the waiting block:
`waitingTimeOffset` so far is `offset0`.  Reads one line, decodes it and
handles a produced ready signal.  The outer `none` models an uncaught
parse exception; `some (none, _)` is the end-of-log return; drawing
calls go to the out-of-scope view layer and only their
`previousSlots := deepcopy(slots)` effect is kept. -/
def tick_rest (tz now : Int) (offset0 : Int) (s0 : CtrlState) :
    Option (Option (ℚ × String) × CtrlState) :=
  let offset := if s0.skipWaitingTimeOffsetFlag then 0 else offset0
  let s1 := if s0.skipWaitingTimeOffsetFlag then
    { s0 with skipWaitingTimeOffsetFlag := false } else s0
  match file_read_line s1.file with
  | (none, f') => some (none, { s1 with file := f' })
  | (some line, f') =>
    let s2 := { s1 with file := f', currentEventLine := line }
    match parse_event_line tz s2.parser line with
    | none => none
    | some (p', _) =>
      let ready := (get_slots_ready p').1
      let s3 := { s2 with parser := (get_slots_ready p').2 }
      match ready with
      | some ts =>
        let s4 :=
          match s3.previousSynEventTmstmp with
          | some prev =>
            { s3 with
                waitingStartTmstmp := now,
                waitingTargetTmstmp :=
                  some (pyRound (((ts - prev : Int) : ℚ) /
                          (s3.waitingTimeDivisor : ℚ)) + now + offset) }
          | none => { s3 with previousSlots := s3.parser.slots }
        some (some (1, s4.currentEventLine),
              { s4 with previousSynEventTmstmp := some ts })
      | none => some (some (1, s3.currentEventLine), s3)

/-- `__realtime_event_tick` at wall-clock time `now` (milliseconds from
`pygame.time.get_ticks()`). -/
def realtime_event_tick (tz now : Int) (s : CtrlState) :
    Option (Option (ℚ × String) × CtrlState) :=
  let s0 :=
    if s.skipWaitingFlag then
      { s with
          waitingTargetTmstmp := some now,
          waitingStartTmstmp := now,
          previousSynEventTmstmp := none,
          skipWaitingFlag := false }
    else s
  match s0.waitingTargetTmstmp with
  | some tgt =>
    if now < tgt then
      some (some ((if tgt ≠ s0.waitingStartTmstmp then
                    ((now - s0.waitingStartTmstmp : Int) : ℚ) /
                      ((tgt - s0.waitingStartTmstmp : Int) : ℚ)
                  else 1), s0.currentEventLine), s0)
    else
      tick_rest tz now (tgt - now)
        { s0 with
            waitingTargetTmstmp := none,
            previousSlots := s0.parser.slots }
  | none => tick_rest tz now 0 s0

/-! ### Helper lemmas: slot table -/

theorem lookupSlot_setSlot_self (tbl : List (Int × Slot)) (k : Int) (v : Slot) :
    lookupSlot (setSlot tbl k v) k = some v := by
  induction tbl with
  | nil => simp [setSlot, lookupSlot]
  | cons hd tl ih =>
    obtain ⟨k', v'⟩ := hd
    by_cases h : k' = k
    · simp [setSlot, h, lookupSlot]
    · simp [setSlot, h, lookupSlot, ih]

theorem lookupSlot_setSlot_ne (tbl : List (Int × Slot)) (k : Int) (v : Slot)
    (k' : Int) (h : k' ≠ k) :
    lookupSlot (setSlot tbl k v) k' = lookupSlot tbl k' := by
  induction tbl with
  | nil =>
    have hne : k ≠ k' := fun hh => h hh.symm
    simp [setSlot, lookupSlot, hne]
  | cons hd tl ih =>
    obtain ⟨k0, v0⟩ := hd
    by_cases h0 : k0 = k
    · subst h0
      have hne : k0 ≠ k' := fun hh => h hh.symm
      simp [setSlot, lookupSlot, hne]
    · simp [setSlot, h0, lookupSlot, ih]

theorem length_le_setSlot (tbl : List (Int × Slot)) (k : Int) (v : Slot) :
    tbl.length ≤ (setSlot tbl k v).length := by
  induction tbl with
  | nil => simp [setSlot]
  | cons hd tl ih =>
    obtain ⟨k0, v0⟩ := hd
    by_cases h0 : k0 = k
    · simp [setSlot, h0]
    · simpa [setSlot, h0] using ih

theorem isSome_lookupSlot_setSlot (tbl : List (Int × Slot)) (k : Int) (v : Slot)
    (k' : Int) (h : (lookupSlot tbl k').isSome) :
    (lookupSlot (setSlot tbl k v) k').isSome := by
  by_cases hk : k' = k
  · subst hk; rw [lookupSlot_setSlot_self]; rfl
  · rwa [lookupSlot_setSlot_ne _ _ _ _ hk]

theorem slots_grow_safe_get (tbl : List (Int × Slot)) (k : Int) :
    tbl.length ≤ (safe_get_slot tbl k).2.length ∧
    ∀ k', (lookupSlot tbl k').isSome →
      (lookupSlot (safe_get_slot tbl k).2 k').isSome := by
  unfold safe_get_slot
  cases h : lookupSlot tbl k with
  | some s => exact ⟨le_refl _, fun _ h' => h'⟩
  | none =>
    exact ⟨length_le_setSlot _ _ _, fun k' h' => isSome_lookupSlot_setSlot _ _ _ _ h'⟩

theorem slots_grow_set (tbl : List (Int × Slot)) (k : Int) (v : Slot) :
    tbl.length ≤ (setSlot tbl k v).length ∧
    ∀ k', (lookupSlot tbl k').isSome →
      (lookupSlot (setSlot tbl k v) k').isSome :=
  ⟨length_le_setSlot _ _ _, fun k' h' => isSome_lookupSlot_setSlot _ _ _ _ h'⟩

/-! ### Helper lemmas: file cursor -/

theorem file_read_line_fst (fs : FileState) :
    (file_read_line fs).1 = fs.lines[fs.nextLineNum]? := by
  unfold file_read_line
  cases h : fs.lines[fs.nextLineNum]? <;> simp [h]

theorem file_read_line_lines (fs : FileState) :
    (file_read_line fs).2.lines = fs.lines := by
  unfold file_read_line
  cases h : fs.lines[fs.nextLineNum]? <;> simp [h]

theorem file_read_discardN_eq (n : Nat) (l : List String) (p : Nat) :
    file_read_discardN n ⟨l, p⟩ = ⟨l, min (p + n) (max p l.length)⟩ := by
  induction n generalizing p with
  | zero =>
    simp only [file_read_discardN, FileState.mk.injEq, true_and]
    omega
  | succ n ih =>
    show file_read_discardN n (file_read_discard ⟨l, p⟩) = _
    by_cases hp : p < l.length
    · have hg : l[p]? = some l[p] := List.getElem?_eq_getElem hp
      show file_read_discardN n (file_read_line ⟨l, p⟩).2 = _
      rw [show (file_read_line ⟨l, p⟩).2 = ⟨l, p + 1⟩ by
        unfold file_read_line; rw [hg]]
      rw [ih]
      simp only [FileState.mk.injEq, true_and]
      omega
    · have hg : l[p]? = none := List.getElem?_eq_none (by omega)
      show file_read_discardN n (file_read_line ⟨l, p⟩).2 = _
      rw [show (file_read_line ⟨l, p⟩).2 = ⟨l, p⟩ by
        unfold file_read_line; rw [hg]]
      rw [ih]
      simp only [FileState.mk.injEq, true_and]
      omega

theorem file_goto_line_eq (fs : FileState) (i : Int) :
    file_goto_line fs i =
      ⟨fs.lines, (min (max i 0) (fs.lines.length : Int)).toNat⟩ := by
  obtain ⟨l, p⟩ := fs
  simp only [file_goto_line]
  have hle : (min (max i 0) (l.length : Int)).toNat ≤ l.length := by omega
  split_ifs with h1 h2
  · simp only [FileState.mk.injEq, true_and]; omega
  · rw [file_read_discardN_eq]
    simp only [FileState.mk.injEq, true_and]
    omega
  · rw [file_read_discardN_eq]
    simp only [FileState.mk.injEq, true_and]
    omega

theorem file_read_lines_lines (k : Nat) (fs : FileState) :
    (file_read_lines k fs).2.lines = fs.lines := by
  induction k generalizing fs with
  | zero => rfl
  | succ k ih =>
    show (file_read_lines k (file_read_line fs).2).2.lines = fs.lines
    rw [ih, file_read_line_lines]

/-! ### Helper lemmas: scheduler arithmetic -/

theorem pyRound_intCast (n : Int) : pyRound (n : ℚ) = n := by
  simp [pyRound, Int.floor_intCast]

theorem abs_pyRound_sub_le (q : ℚ) : |(pyRound q : ℚ) - q| ≤ 1 / 2 := by
  have h0 : (⌊q⌋ : ℚ) ≤ q := Int.floor_le q
  have h1 : q < ⌊q⌋ + 1 := Int.lt_floor_add_one q
  simp only [pyRound]
  split_ifs with ha hb hc <;>
    · rw [abs_le]
      constructor <;> push_cast <;> linarith

theorem pyTruncRat_intCast (n : Int) : pyTruncRat (n : ℚ) = n := by
  unfold pyTruncRat
  split_ifs <;> simp

/-! ### Helper lemmas: reduction of `dispatch_event` per `(type, code)` -/

theorem dispatch_slot_select (st : ParserState) (ts v : Int) :
    dispatch_event st ⟨ts, 3, 0x2f, v⟩ = ({ st with activeSlot := v }, []) := rfl

theorem dispatch_x (st : ParserState) (ts v : Int) :
    dispatch_event st ⟨ts, 3, 0x35, v⟩ =
      ({ st with slots := xUpdatedSlots st v }, []) := rfl

theorem dispatch_y (st : ParserState) (ts v : Int) :
    dispatch_event st ⟨ts, 3, 0x36, v⟩ =
      ({ st with slots := yUpdatedSlots st v }, []) := rfl

theorem dispatch_tracking (st : ParserState) (ts v : Int) :
    dispatch_event st ⟨ts, 3, 0x39, v⟩ =
      (if some v ≠ (safe_get_slot st.slots st.activeSlot).1.tracking_id then
        if v ≠ 0xffffffff then
          ({ st with slots := trackingSetSlots st v }, [])
        else
          ({ st with slots :=
              setSlot (safe_get_slot st.slots st.activeSlot).2 st.activeSlot Slot.empty }, [])
      else ({ st with slots := (safe_get_slot st.slots st.activeSlot).2 }, [])) := rfl

theorem dispatch_syn (st : ParserState) (ts c v : Int) :
    dispatch_event st ⟨ts, 0, c, v⟩ =
      ({ st with slotsReady := some ts },
       match st.slotsReady with
       | some t => [Warning.unreadSyn t]
       | none => []) := rfl

/-! ### C2: seek then read -/

/-- C2: `file_goto_line` first clamps the index into `[0, totalLines]`
(an out-of-range index is not an error), and the next `file_read_line`
returns the line originally at the clamped index, or end-of-stream when
the clamped index equals `totalLines`. -/
theorem goto_line_clamps_and_reads (fs : FileState) (i : Int) :
    (file_read_line (file_goto_line fs i)).1 =
      fs.lines[(min (max i 0) (fs.lines.length : Int)).toNat]? ∧
    (min (max i 0) (fs.lines.length : Int)).toNat ≤ fs.lines.length ∧
    (file_read_line (file_goto_line fs i)).1 =
      (if (min (max i 0) (fs.lines.length : Int)).toNat = fs.lines.length
       then none
       else fs.lines[(min (max i 0) (fs.lines.length : Int)).toNat]?) := by
  have hg := file_goto_line_eq fs i
  have hle : (min (max i 0) (fs.lines.length : Int)).toNat ≤ fs.lines.length := by
    omega
  refine ⟨?_, hle, ?_⟩
  · rw [hg, file_read_line_fst]
  · rw [hg, file_read_line_fst]
    by_cases h : (min (max i 0) (fs.lines.length : Int)).toNat = fs.lines.length
    · rw [if_pos h]
      exact List.getElem?_eq_none h.symm.le
    · rw [if_neg h]

/-- C7: `file_goto_line i`, reading `k` lines, then `file_goto_line i`
again reproduces the same `k` lines, and `file_goto_line` is
idempotent. -/
theorem seek_roundtrip (fs : FileState) (i : Int) (k : Nat) :
    (file_read_lines k
        (file_goto_line (file_read_lines k (file_goto_line fs i)).2 i)).1 =
      (file_read_lines k (file_goto_line fs i)).1 ∧
    file_goto_line (file_goto_line fs i) i = file_goto_line fs i := by
  have h1 := file_goto_line_eq fs i
  have hx : (file_read_lines k (file_goto_line fs i)).2.lines = fs.lines := by
    rw [file_read_lines_lines, h1]
  have hsame : file_goto_line (file_read_lines k (file_goto_line fs i)).2 i =
      file_goto_line fs i := by
    rw [file_goto_line_eq ((file_read_lines k (file_goto_line fs i)).2) i, hx, h1]
  refine ⟨by rw [hsame], ?_⟩
  rw [h1, file_goto_line_eq]

/-- C3: `get_slots_ready` returns the commit timestamp at most once: the
state it leaves behind has no ready signal, a second immediate call
returns `none`, decoding a non-`SYN_REPORT` event does not set the ready
signal, and a `SYN_REPORT` decoded while a previous signal is unconsumed
overwrites it (last-write-wins) and logs an unread-commit warning. -/
theorem consume_ready_at_most_once (st : ParserState) (e f : RawEvent) :
    (get_slots_ready (get_slots_ready st).2).1 = none ∧
    (e.type ≠ 0 → (dispatch_event st e).1.slotsReady = st.slotsReady) ∧
    (f.type = 0 →
      (dispatch_event st f).1.slotsReady = some f.timestamp ∧
      (dispatch_event st f).2 =
        (match st.slotsReady with
         | some t => [Warning.unreadSyn t]
         | none => [])) := by
  refine ⟨rfl, ?_, ?_⟩
  · intro h
    simp only [dispatch_event]
    split_ifs <;>
      first
        | rfl
        | exact absurd ‹e.type = 0› h
  · intro h
    have h3 : ¬(f.type = 3) := by rw [h]; decide
    simp only [dispatch_event]
    rw [if_neg h3, if_pos h]
    exact ⟨rfl, rfl⟩

theorem consume_ready_at_most_once_witness :
    (get_slots_ready (get_slots_ready ⟨0, [], some 7⟩).2).1 = none ∧
    (dispatch_event ⟨0, [], some 7⟩ ⟨5, 3, 0x2f, 1⟩).1.slotsReady = some 7 ∧
    ((dispatch_event ⟨0, [], some 7⟩ ⟨9, 0, 0, 0⟩).1.slotsReady = some 9 ∧
     (dispatch_event ⟨0, [], some 7⟩ ⟨9, 0, 0, 0⟩).2 = [Warning.unreadSyn 7]) := by
  have h := consume_ready_at_most_once ⟨0, [], some 7⟩ ⟨5, 3, 0x2f, 1⟩ ⟨9, 0, 0, 0⟩
  exact ⟨h.1, h.2.1 (by decide), h.2.2 rfl⟩

/-- C4 counterexample: the decoded event `(type, code) = (1, 0x30)` —
`EV_KEY` with a code other than `BTN_TOUCH` — is neither `EV_ABS` nor
`SYN_REPORT` nor the pair `(0x0001, 0x014a)`, yet it is silently
ignored: decoding it produces no warning, where the claim requires an
"unhandled event" warning. -/
theorem unhandled_event_counterexample :
    parse_event_line 0 initParserState "2024/01/01 00:00:00.000000 1 30 1" =
      some (initParserState, []) ∧
    (1 : Int) ≠ 0 ∧ (1 : Int) ≠ 3 ∧ ¬((1 : Int) = 1 ∧ (0x30 : Int) = 0x014a) := by
  refine ⟨by decide, by decide, by decide, by decide⟩

/-- C4 (amended): a well-formed record whose type is neither `EV_ABS`
(3) nor `SYN_REPORT` (0) leaves the whole decoder state unchanged, and
logs an "unhandled event" warning exactly when its type is not `EV_KEY`
(1) *and* its code is not `BTN_TOUCH` (0x14a); records with type 1 or
with code 0x14a are silently ignored. -/
theorem unhandled_event_behavior (st : ParserState) (e : RawEvent)
    (h3 : e.type ≠ 3) (h0 : e.type ≠ 0) :
    dispatch_event st e =
      (st, if e.type ≠ 1 ∧ e.code ≠ 0x014a
           then [Warning.unhandledEvent e.type e.code e.value] else []) := by
  unfold dispatch_event
  rw [if_neg h3, if_neg h0]
  split_ifs with h <;> rfl

theorem unhandled_event_behavior_witness :
    dispatch_event initParserState ⟨0, 2, 5, 9⟩ =
      (initParserState, [Warning.unhandledEvent 2 5 9]) := by
  have h := unhandled_event_behavior initParserState ⟨0, 2, 5, 9⟩ (by decide) (by decide)
  simpa using h

/-- C1: decoding `ABS_MT_TRACKING_ID` with value `v`: if `v` equals the
active slot's current tracking id the state is unchanged; otherwise the
active slot is reinitialized all-absent and `tracking_id` is set to `v`
exactly when `v` is not the release sentinel `0xffffffff`, no other slot
changes, and neither the active-slot pointer nor the ready signal
moves. -/
theorem tracking_id_event (st : ParserState) (ts v : Int) :
    (some v = ((lookupSlot st.slots st.activeSlot).getD Slot.empty).tracking_id →
      dispatch_event st ⟨ts, 3, 0x39, v⟩ = (st, [])) ∧
    (some v ≠ ((lookupSlot st.slots st.activeSlot).getD Slot.empty).tracking_id →
      lookupSlot (dispatch_event st ⟨ts, 3, 0x39, v⟩).1.slots st.activeSlot =
        some (if v = 0xffffffff then Slot.empty
              else { tracking_id := some v, x := none, y := none }) ∧
      (∀ k, k ≠ st.activeSlot →
        lookupSlot (dispatch_event st ⟨ts, 3, 0x39, v⟩).1.slots k =
          lookupSlot st.slots k) ∧
      (dispatch_event st ⟨ts, 3, 0x39, v⟩).1.activeSlot = st.activeSlot ∧
      (dispatch_event st ⟨ts, 3, 0x39, v⟩).1.slotsReady = st.slotsReady) := by
  have hd := dispatch_tracking st ts v
  constructor
  · intro h
    rcases hlk : lookupSlot st.slots st.activeSlot with _ | sl
    · rw [hlk] at h
      simp [Slot.empty] at h
    · rw [hlk] at h
      simp only [Option.getD_some] at h
      have hsg : safe_get_slot st.slots st.activeSlot = (sl, st.slots) := by
        unfold safe_get_slot
        rw [hlk]
      rw [hd, hsg]
      rw [if_neg (not_not_intro h)]
  · intro h
    rcases hlk : lookupSlot st.slots st.activeSlot with _ | sl
    · have hsg : safe_get_slot st.slots st.activeSlot =
          (Slot.empty, setSlot st.slots st.activeSlot Slot.empty) := by
        unfold safe_get_slot
        rw [hlk]
      have hcond : some v ≠ (safe_get_slot st.slots st.activeSlot).1.tracking_id := by
        rw [hsg]
        simp [Slot.empty]
      by_cases hv : v = 0xffffffff
      · rw [hd]
        rw [if_pos hcond, if_neg (not_not_intro hv), if_pos hv]
        rw [hsg]
        refine ⟨?_, ?_, rfl, rfl⟩
        · dsimp only
          exact lookupSlot_setSlot_self _ _ _
        · intro k hk
          dsimp only
          rw [lookupSlot_setSlot_ne _ _ _ _ hk, lookupSlot_setSlot_ne _ _ _ _ hk]
      · rw [hd]
        rw [if_pos hcond, if_pos hv, if_neg hv]
        have hsg2 : safe_get_slot
            (setSlot (setSlot st.slots st.activeSlot Slot.empty) st.activeSlot Slot.empty)
            st.activeSlot =
            (Slot.empty,
             setSlot (setSlot st.slots st.activeSlot Slot.empty) st.activeSlot Slot.empty) := by
          unfold safe_get_slot
          rw [lookupSlot_setSlot_self]
        refine ⟨?_, ?_, rfl, rfl⟩
        · show lookupSlot (trackingSetSlots st v) st.activeSlot = _
          unfold trackingSetSlots
          rw [hsg]
          dsimp only
          rw [hsg2]
          dsimp only
          rw [lookupSlot_setSlot_self]
          rfl
        · intro k hk
          show lookupSlot (trackingSetSlots st v) k = _
          unfold trackingSetSlots
          rw [hsg]
          dsimp only
          rw [hsg2]
          dsimp only
          rw [lookupSlot_setSlot_ne _ _ _ _ hk, lookupSlot_setSlot_ne _ _ _ _ hk,
            lookupSlot_setSlot_ne _ _ _ _ hk]
    · rw [hlk] at h
      simp only [Option.getD_some] at h
      have hsg : safe_get_slot st.slots st.activeSlot = (sl, st.slots) := by
        unfold safe_get_slot
        rw [hlk]
      have hcond : some v ≠ (safe_get_slot st.slots st.activeSlot).1.tracking_id := by
        rw [hsg]
        exact h
      by_cases hv : v = 0xffffffff
      · rw [hd]
        rw [if_pos hcond, if_neg (not_not_intro hv), if_pos hv]
        rw [hsg]
        refine ⟨?_, ?_, rfl, rfl⟩
        · dsimp only
          exact lookupSlot_setSlot_self _ _ _
        · intro k hk
          dsimp only
          rw [lookupSlot_setSlot_ne _ _ _ _ hk]
      · rw [hd]
        rw [if_pos hcond, if_pos hv, if_neg hv]
        have hsg2 : safe_get_slot (setSlot st.slots st.activeSlot Slot.empty)
            st.activeSlot =
            (Slot.empty, setSlot st.slots st.activeSlot Slot.empty) := by
          unfold safe_get_slot
          rw [lookupSlot_setSlot_self]
        refine ⟨?_, ?_, rfl, rfl⟩
        · show lookupSlot (trackingSetSlots st v) st.activeSlot = _
          unfold trackingSetSlots
          rw [hsg]
          dsimp only
          rw [hsg2]
          dsimp only
          rw [lookupSlot_setSlot_self]
          rfl
        · intro k hk
          show lookupSlot (trackingSetSlots st v) k = _
          unfold trackingSetSlots
          rw [hsg]
          dsimp only
          rw [hsg2]
          dsimp only
          rw [lookupSlot_setSlot_ne _ _ _ _ hk, lookupSlot_setSlot_ne _ _ _ _ hk]

theorem tracking_id_event_witness :
    dispatch_event ⟨0, [(0, ⟨some 5, none, none⟩)], none⟩ ⟨0, 3, 0x39, 5⟩ =
      (⟨0, [(0, ⟨some 5, none, none⟩)], none⟩, []) ∧
    lookupSlot (dispatch_event initParserState ⟨0, 3, 0x39, 7⟩).1.slots 0 =
      some { tracking_id := some 7, x := none, y := none } ∧
    lookupSlot (dispatch_event initParserState ⟨0, 3, 0x39, 7⟩).1.slots 3 =
      lookupSlot initParserState.slots 3 := by
  have ha := (tracking_id_event ⟨0, [(0, ⟨some 5, none, none⟩)], none⟩ 0 5).1 (by decide)
  have hb := (tracking_id_event initParserState 0 7).2 (by decide)
  refine ⟨ha, ?_, hb.2.1 3 (by decide)⟩
  have := hb.1
  simpa using this

/-- C5 counterexample: a line with exactly five fields and a valid
date/time field still makes the decoder fail when a hex field (here the
value `"zz"`) does not parse, so "fails exactly when the field count or
the date/time field is bad" is too narrow. -/
theorem decode_fails_counterexample :
    (splitWS "2024/01/01 00:00:00.000000 3 2f zz").length = 5 ∧
    (parseTimestampMs 0 "2024/01/01" "00:00:00.000000").isSome = true ∧
    parse_event_line 0 initParserState "2024/01/01 00:00:00.000000 3 2f zz" =
      none := by
  refine ⟨by decide, by decide, by decide⟩

/-- C5 (amended): decoding fails exactly when the line does not split
into exactly five whitespace-separated fields, or the date/time field
fails to parse, or one of the type/code/value fields fails to parse as a
hexadecimal integer.  The failure is an error result (not a silent
skip), and since all parsing happens before any mutation, the decoder
state stays with the caller unchanged. -/
theorem decode_fails_iff (tz : Int) (st : ParserState) (line : String) :
    parse_event_line tz st line = none ↔
      ¬ ∃ f0 f1 f2 f3 f4, splitWS line = [f0, f1, f2, f3, f4] ∧
          (parseTimestampMs tz f0 f1).isSome ∧ (pyIntHex f2).isSome ∧
          (pyIntHex f3).isSome ∧ (pyIntHex f4).isSome := by
  constructor
  · rintro hnone ⟨f0, f1, f2, f3, f4, heq, hpt, hh2, hh3, hh4⟩
    rw [Option.isSome_iff_exists] at hpt hh2 hh3 hh4
    obtain ⟨ts, hts⟩ := hpt
    obtain ⟨ty, hty⟩ := hh2
    obtain ⟨co, hco⟩ := hh3
    obtain ⟨vl, hvl⟩ := hh4
    unfold parse_event_line at hnone
    rw [heq] at hnone
    simp [hts, hty, hco, hvl] at hnone
  · intro hne
    cases hp : parse_event_line tz st line with
    | none => rfl
    | some pr =>
      exfalso
      apply hne
      unfold parse_event_line at hp
      rcases hs : splitWS line with _ | ⟨a, _ | ⟨b, _ | ⟨c, _ | ⟨d, _ | ⟨e, _ | ⟨f, rest⟩⟩⟩⟩⟩⟩ <;>
        rw [hs] at hp <;> dsimp only at hp
      · cases hp
      · cases hp
      · cases hp
      · cases hp
      · cases hp
      · split at hp
        · rename_i ts ty co vl hts hty hco hvl
          exact ⟨a, b, c, d, e, rfl, by rw [hts]; rfl, by rw [hty]; rfl,
            by rw [hco]; rfl, by rw [hvl]; rfl⟩
        · cases hp
      · cases hp

/-- Every dispatched event extends the slot table: the length never
shrinks and present keys stay present. -/
theorem dispatch_event_slots_extend (st : ParserState) (e : RawEvent) :
    st.slots.length ≤ (dispatch_event st e).1.slots.length ∧
    ∀ k, (lookupSlot st.slots k).isSome →
      (lookupSlot (dispatch_event st e).1.slots k).isSome := by
  have extend_trans : ∀ {t1 t2 t3 : List (Int × Slot)},
      (t1.length ≤ t2.length ∧
        ∀ k, (lookupSlot t1 k).isSome → (lookupSlot t2 k).isSome) →
      (t2.length ≤ t3.length ∧
        ∀ k, (lookupSlot t2 k).isSome → (lookupSlot t3 k).isSome) →
      (t1.length ≤ t3.length ∧
        ∀ k, (lookupSlot t1 k).isSome → (lookupSlot t3 k).isSome) :=
    fun a b => ⟨le_trans a.1 b.1, fun k h => b.2 k (a.2 k h)⟩
  simp only [dispatch_event]
  split_ifs <;> dsimp only <;>
    first
      | exact ⟨le_refl _, fun k h => h⟩
      | exact slots_grow_safe_get _ _
      | exact extend_trans (slots_grow_safe_get _ _) (slots_grow_set _ _ _)
      | exact extend_trans
          (extend_trans (slots_grow_safe_get _ _) (slots_grow_set _ _ _))
          (extend_trans (slots_grow_safe_get _ _) (slots_grow_set _ _ _))

/-- C8: a successful decode never removes a slot index: the slot table's
size is non-decreasing and every index present before is present
after. -/
theorem slot_table_monotone (tz : Int) (st : ParserState) (line : String)
    (st' : ParserState) (w : List Warning)
    (h : parse_event_line tz st line = some (st', w)) :
    st.slots.length ≤ st'.slots.length ∧
    ∀ k, (lookupSlot st.slots k).isSome → (lookupSlot st'.slots k).isSome := by
  unfold parse_event_line at h
  split at h
  · split at h
    · rename_i ts ty co vl hts hty hco hvl
      injection h with h'
      have hext := dispatch_event_slots_extend st ⟨ts, ty, co, vl⟩
      rw [h'] at hext
      exact hext
    · exact absurd h (by simp)
  · exact absurd h (by simp)

theorem pyTruncRat_zero_micros (a : Int) :
    pyTruncRat ((a : ℚ) * 1000 + ((0 : Nat) : ℚ) / 1000) = a * 1000 := by
  have h : ((a : ℚ) * 1000 + ((0 : Nat) : ℚ) / 1000) = ((a * 1000 : Int) : ℚ) := by
    push_cast
    ring
  rw [h, pyTruncRat_intCast]

/-- C9 counterexample: the five-line scenario log decodes slot 0 to
`{tracking_id: 5, x: 256, y: 512}` — the position values `100`/`200` are
parsed as hexadecimal (`int(_, 16)`), so slot 0 differs from the claimed
`{tracking_id: 5, x: 100, y: 200}`. -/
theorem scenario_log_counterexample :
    (decodeAll 0 initParserState
        ["2024/01/01 00:00:00.000000 3 2f 0\n",
         "2024/01/01 00:00:00.000000 3 39 5\n",
         "2024/01/01 00:00:00.000000 3 35 100\n",
         "2024/01/01 00:00:00.000000 3 36 200\n",
         "2024/01/01 00:00:00.000000 0 0 0\n"]).map
      (fun st => lookupSlot st.slots 0) =
      some (some { tracking_id := some 5, x := some 256, y := some 512 }) ∧
    some (some ({ tracking_id := some 5, x := some 256, y := some 512 } : Slot)) ≠
      some (some ({ tracking_id := some 5, x := some 100, y := some 200 } : Slot)) := by
  exact ⟨by decide, by decide⟩

/-- C9 (amended): the five-line scenario log decodes to slot 0 =
`{tracking_id: 5, x: 0x100 = 256, y: 0x200 = 512}` (the value fields are
hexadecimal), with a ready signal equal to the epoch milliseconds parsed
from the date/time field, for every host timezone offset. -/
theorem scenario_five_line_log (tz : Int) :
    ∃ st, decodeAll tz initParserState
        ["2024/01/01 00:00:00.000000 3 2f 0\n",
         "2024/01/01 00:00:00.000000 3 39 5\n",
         "2024/01/01 00:00:00.000000 3 35 100\n",
         "2024/01/01 00:00:00.000000 3 36 200\n",
         "2024/01/01 00:00:00.000000 0 0 0\n"] = some st ∧
      lookupSlot st.slots 0 =
        some { tracking_id := some 5, x := some 256, y := some 512 } ∧
      st.slotsReady = parseTimestampMs tz "2024/01/01" "00:00:00.000000" ∧
      (parseTimestampMs tz "2024/01/01" "00:00:00.000000").isSome = true := by
  have h0 : parseNaiveDatetime "2024/01/01" "00:00:00.000000" =
      some (1704067200, 0) := by decide
  have hts : parseTimestampMs tz "2024/01/01" "00:00:00.000000" =
      some ((1704067200 - tz) * 1000) := by
    unfold parseTimestampMs
    rw [h0]
    simp only [Option.map_some']
    rw [pyTruncRat_zero_micros]
  have hp1 : parse_event_line tz initParserState
      "2024/01/01 00:00:00.000000 3 2f 0\n" = some (initParserState, []) := rfl
  have hp2 : parse_event_line tz initParserState
      "2024/01/01 00:00:00.000000 3 39 5\n" =
      some (⟨0, [(0, ⟨some 5, none, none⟩)], none⟩, []) := rfl
  have hp3 : parse_event_line tz (⟨0, [(0, ⟨some 5, none, none⟩)], none⟩ : ParserState)
      "2024/01/01 00:00:00.000000 3 35 100\n" =
      some (⟨0, [(0, ⟨some 5, some 256, none⟩)], none⟩, []) := rfl
  have hp4 : parse_event_line tz (⟨0, [(0, ⟨some 5, some 256, none⟩)], none⟩ : ParserState)
      "2024/01/01 00:00:00.000000 3 36 200\n" =
      some (⟨0, [(0, ⟨some 5, some 256, some 512⟩)], none⟩, []) := rfl
  have hp5 : parse_event_line tz (⟨0, [(0, ⟨some 5, some 256, some 512⟩)], none⟩ : ParserState)
      "2024/01/01 00:00:00.000000 0 0 0\n" =
      some (⟨0, [(0, ⟨some 5, some 256, some 512⟩)], some ((1704067200 - tz) * 1000)⟩, []) := by
    unfold parse_event_line
    rw [show splitWS "2024/01/01 00:00:00.000000 0 0 0\n" =
        ["2024/01/01", "00:00:00.000000", "0", "0", "0"] from by decide]
    dsimp only
    rw [hts, show pyIntHex "0" = some 0 from by decide]
    dsimp only
    rw [dispatch_syn]
  refine ⟨⟨0, [(0, ⟨some 5, some 256, some 512⟩)], some ((1704067200 - tz) * 1000)⟩,
    ?_, rfl, ?_, ?_⟩
  · simp only [decodeAll, hp1, hp2, hp3, hp4, hp5]
  · rw [hts]
  · rw [hts]
    rfl

/-- C10: a position or tracking event whose active slot is missing from
the table first allocates it all-absent and then applies only that
event's update — so the table can hold a slot with coordinates set while
its tracking id is absent (witnessed by the two-line run). -/
theorem absent_slot_allocation (st : ParserState) (ts v : Int)
    (h : lookupSlot st.slots st.activeSlot = none) :
    lookupSlot (dispatch_event st ⟨ts, 3, 0x35, v⟩).1.slots st.activeSlot =
      some { tracking_id := none, x := some v, y := none } ∧
    lookupSlot (dispatch_event st ⟨ts, 3, 0x36, v⟩).1.slots st.activeSlot =
      some { tracking_id := none, x := none, y := some v } ∧
    lookupSlot (dispatch_event st ⟨ts, 3, 0x39, v⟩).1.slots st.activeSlot =
      some (if v = 0xffffffff then Slot.empty
            else { tracking_id := some v, x := none, y := none }) ∧
    (decodeAll 0 initParserState
        ["2024/01/01 00:00:00.000000 3 35 64",
         "2024/01/01 00:00:00.000000 3 36 c8"]).map
      (fun s => lookupSlot s.slots 0) =
      some (some { tracking_id := none, x := some 100, y := some 200 }) := by
  have hsg : safe_get_slot st.slots st.activeSlot =
      (Slot.empty, setSlot st.slots st.activeSlot Slot.empty) := by
    unfold safe_get_slot
    rw [h]
  have hcond : some v ≠ (safe_get_slot st.slots st.activeSlot).1.tracking_id := by
    rw [hsg]
    simp [Slot.empty]
  refine ⟨?_, ?_, ?_, by decide⟩
  · rw [dispatch_x]
    unfold xUpdatedSlots
    rw [hsg]
    dsimp only
    rw [lookupSlot_setSlot_self]
    rfl
  · rw [dispatch_y]
    unfold yUpdatedSlots
    rw [hsg]
    dsimp only
    rw [lookupSlot_setSlot_self]
    rfl
  · rw [dispatch_tracking, if_pos hcond]
    by_cases hv : v = 0xffffffff
    · rw [if_neg (not_not_intro hv), if_pos hv, hsg]
      dsimp only
      exact lookupSlot_setSlot_self _ _ _
    · rw [if_pos hv, if_neg hv]
      have hsg2 : safe_get_slot
          (setSlot (setSlot st.slots st.activeSlot Slot.empty) st.activeSlot Slot.empty)
          st.activeSlot =
          (Slot.empty,
           setSlot (setSlot st.slots st.activeSlot Slot.empty) st.activeSlot Slot.empty) := by
        unfold safe_get_slot
        rw [lookupSlot_setSlot_self]
      show lookupSlot (trackingSetSlots st v) st.activeSlot = _
      unfold trackingSetSlots
      rw [hsg]
      dsimp only
      rw [hsg2]
      dsimp only
      rw [lookupSlot_setSlot_self]
      rfl

/-- After the waiting block, a tick that reads a line whose decode
produces a ready signal, while a previous commit timestamp exists,
enters the waiting state with the speed-scaled window plus the carried
offset. -/
theorem tick_rest_commit (tz now off : Int) (s : CtrlState) (line : String)
    (p' : ParserState) (w : List Warning) (ts prev : Int)
    (h2 : s.skipWaitingTimeOffsetFlag = false)
    (h4 : (file_read_line s.file).1 = some line)
    (h5 : parse_event_line tz s.parser line = some (p', w))
    (h6 : p'.slotsReady = some ts)
    (h7 : s.previousSynEventTmstmp = some prev) :
    ∃ s', tick_rest tz now off s = some (some (1, line), s') ∧
      s'.waitingStartTmstmp = now ∧
      s'.waitingTargetTmstmp =
        some (pyRound (((ts - prev : Int) : ℚ) / (s.waitingTimeDivisor : ℚ)) +
          now + off) ∧
      s'.previousSynEventTmstmp = some ts := by
  rcases hfl : file_read_line s.file with ⟨r, f2⟩
  rw [hfl] at h4
  dsimp only at h4
  subst h4
  unfold tick_rest
  rw [h2]
  simp only [Bool.false_eq_true, if_false]
  rw [hfl]
  try dsimp only
  rw [h5]
  try dsimp only
  simp only [get_slots_ready]
  try dsimp only
  rw [h6]
  try dsimp only
  rw [h7]
  exact ⟨_, rfl, rfl, rfl, rfl⟩

/-- C6: when a commit with timestamp `ts` is decoded and a previous
commit timestamp exists, the scheduler enters waiting with
`waitingStart = now` and
`target = now + round((ts - prev)/divisor) + waitingTimeOffset` (the
offset being the overshoot of the wait that just expired, or zero when
idle); and for a fixed recorded delta the computed window at divisor `d`
equals the window at divisor `1` divided by `d`, within rounding
(i.e. up to `1/2` ms). -/
theorem commit_wait_window (tz now : Int) (s : CtrlState) (line : String)
    (p' : ParserState) (w : List Warning) (ts prev : Int)
    (h1 : s.skipWaitingFlag = false)
    (h2 : s.skipWaitingTimeOffsetFlag = false)
    (h3 : s.waitingTargetTmstmp = none ∨
          ∃ tgt, s.waitingTargetTmstmp = some tgt ∧ tgt ≤ now)
    (h4 : (file_read_line s.file).1 = some line)
    (h5 : parse_event_line tz s.parser line = some (p', w))
    (h6 : p'.slotsReady = some ts)
    (h7 : s.previousSynEventTmstmp = some prev) :
    (∃ s', realtime_event_tick tz now s = some (some (1, line), s') ∧
       s'.waitingStartTmstmp = now ∧
       s'.waitingTargetTmstmp =
         some (pyRound (((ts - prev : Int) : ℚ) / (s.waitingTimeDivisor : ℚ)) + now +
           (match s.waitingTargetTmstmp with
            | some tgt => tgt - now
            | none => 0)) ∧
       s'.previousSynEventTmstmp = some ts) ∧
    (∀ delta d : Int, 1 ≤ d →
      |(pyRound ((delta : ℚ) / (d : ℚ)) : ℚ) -
        (pyRound ((delta : ℚ) / ((1 : Int) : ℚ)) : ℚ) / (d : ℚ)| ≤ 1 / 2) := by
  constructor
  · unfold realtime_event_tick
    rw [h1]
    simp only [Bool.false_eq_true, if_false]
    rcases h3 with h3 | ⟨tgt, htgt, hle⟩
    · rw [h3]
      dsimp only
      exact tick_rest_commit tz now 0 s line p' w ts prev h2 h4 h5 h6 h7
    · rw [htgt]
      dsimp only
      rw [if_neg (not_lt.mpr hle)]
      exact tick_rest_commit tz now (tgt - now)
        { s with waitingTargetTmstmp := none, previousSlots := s.parser.slots }
        line p' w ts prev h2 h4 h5 h6 h7
  · intro delta d _hd
    have hone : pyRound ((delta : ℚ) / ((1 : Int) : ℚ)) = delta := by
      rw [show ((1 : Int) : ℚ) = 1 from by norm_num, div_one, pyRound_intCast]
    rw [hone]
    exact abs_pyRound_sub_le ((delta : ℚ) / (d : ℚ))

theorem commit_wait_window_witness :
    (∃ s', realtime_event_tick 0 100
        ⟨⟨0, [], none⟩, ⟨["2024/01/01 00:00:00.000000 0 0 0"], 0⟩, [],
         some 1704067199000, 0, none, 2, false, false, ""⟩ =
        some (some (1, "2024/01/01 00:00:00.000000 0 0 0"), s') ∧
       s'.waitingStartTmstmp = 100 ∧
       s'.waitingTargetTmstmp =
         some (pyRound (((1704067200000 - 1704067199000 : Int) : ℚ) / ((2 : Int) : ℚ)) +
           100 + 0) ∧
       s'.previousSynEventTmstmp = some 1704067200000) ∧
    |(pyRound (((5 : Int) : ℚ) / ((2 : Int) : ℚ)) : ℚ) -
      (pyRound (((5 : Int) : ℚ) / ((1 : Int) : ℚ)) : ℚ) / ((2 : Int) : ℚ)| ≤ 1 / 2 := by
  have h0 : parseNaiveDatetime "2024/01/01" "00:00:00.000000" =
      some (1704067200, 0) := by decide
  have hts : parseTimestampMs 0 "2024/01/01" "00:00:00.000000" =
      some 1704067200000 := by
    unfold parseTimestampMs
    rw [h0]
    simp only [Option.map_some']
    rw [pyTruncRat_zero_micros]
    norm_num
  have h5W : parse_event_line 0 (⟨0, [], none⟩ : ParserState)
      "2024/01/01 00:00:00.000000 0 0 0" =
      some (⟨0, [], some 1704067200000⟩, []) := by
    unfold parse_event_line
    rw [show splitWS "2024/01/01 00:00:00.000000 0 0 0" =
        ["2024/01/01", "00:00:00.000000", "0", "0", "0"] from by decide]
    dsimp only
    rw [hts, show pyIntHex "0" = some 0 from by decide]
    dsimp only
    rw [dispatch_syn]
  have h := commit_wait_window 0 100
      ⟨⟨0, [], none⟩, ⟨["2024/01/01 00:00:00.000000 0 0 0"], 0⟩, [],
       some 1704067199000, 0, none, 2, false, false, ""⟩
      "2024/01/01 00:00:00.000000 0 0 0"
      ⟨0, [], some 1704067200000⟩ [] 1704067200000 1704067199000
      rfl rfl (Or.inl rfl) rfl h5W rfl rfl
  exact ⟨h.1, h.2 5 2 (by norm_num)⟩

theorem absent_slot_allocation_witness :
    lookupSlot (dispatch_event initParserState ⟨0, 3, 0x35, 100⟩).1.slots 0 =
      some { tracking_id := none, x := some 100, y := none } := by
  have h := absent_slot_allocation initParserState 0 100 (by decide)
  exact h.1

theorem slot_table_monotone_witness :
    ([(0, Slot.empty)] : List (Int × Slot)).length ≤
      ([((0 : Int), (⟨none, some 100, none⟩ : Slot))]).length ∧
    (lookupSlot [((0 : Int), (⟨none, some 100, none⟩ : Slot))] 0).isSome := by
  have h := slot_table_monotone 0 ⟨0, [(0, Slot.empty)], none⟩
      "2024/01/01 00:00:00.000000 3 35 64"
      ⟨0, [(0, ⟨none, some 100, none⟩)], none⟩ [] (by decide)
  exact ⟨h.1, h.2 0 (by decide)⟩
